import Mathlib

/-!
Verification of the client-side reconciliation logic of the chat frontend
(`src/ui/ChatApp.jsx` and the message decryption helper).  The JavaScript
handlers are embedded shallowly: optional object fields become `Option String`,
JS truthiness (`x || y`, `!x`, `String(x)`, `filter(Boolean)`) is made explicit,
and every state update (`setMessages`, `setChats`, `setUnreadCounts`) becomes a
pure function from the previous collection snapshot to the next one.  Emitted
socket events are collected into an explicit `Emit` list.
-/

set_option linter.unusedVariables false

namespace VercelChat

/-- JS truthiness test for an optional string value: `undefined`/`null` and the
empty string are falsy, every other string is truthy. -/
def jsFalsyStr : Option String → Bool
  | none => true
  | some s => s == ""

/-- JS `a || b` for two optional string fields: the left value when it is
truthy, otherwise the right one. -/
def jsOrStr (a b : Option String) : Option String :=
  match a with
  | some s => if s == "" then b else some s
  | none => b

/-- JS `String(v)` applied to an optional string: `String(undefined)` is the
literal string `"undefined"`. -/
def jsString : Option String → String
  | some s => s
  | none => "undefined"

/-- The kernel of `.filter(Boolean)` applied to a `x.id || x._id` value: keeps
the value only when it is truthy. -/
def jsTruthyVal : Option String → Option String
  | none => none
  | some s => if s == "" then none else some s

/-- Embedded chat info carried on a `message:new` payload (`message.chatInfo`),
spread into a new chat entry by the fallback insert. -/
structure ChatInfo where
  id : Option String
  _id : Option String
  name : Option String
  isGroup : Bool
deriving DecidableEq, Repr

/-- A message object as handled by the component: dual id fields, dual chat-id
fields, sender, content, per-recipient status map (`recipientId → status`), the
optimistic flag of not-yet-acknowledged sends, and optional embedded chat
info. -/
structure Message where
  id : Option String
  _id : Option String
  chat : Option String
  chatId : Option String
  sender : String
  content : String
  createdAt : Option String
  status : List (String × String)
  optimistic : Bool
  chatInfo : Option ChatInfo
deriving DecidableEq, Repr

/-- A chat summary as cached in the sidebar list. -/
structure Chat where
  id : Option String
  _id : Option String
  name : Option String
  isGroup : Bool
  typing : Bool
  lastMessage : Option Message
deriving DecidableEq, Repr

/-- `String(x.id || x._id)`: the canonical id used as the deduplication key
everywhere in the component. -/
def canonicalId (i mid : Option String) : String :=
  jsString (jsOrStr i mid)

/-- Canonical key of a message. -/
def msgKey (m : Message) : String := canonicalId m.id m._id

/-- Canonical key of a chat. -/
def chatKey (c : Chat) : String := canonicalId c.id c._id

/-- Canonical key of an embedded `chatInfo` object. -/
def infoKey (ci : ChatInfo) : String := canonicalId ci.id ci._id

/-- `currentActive?.id || currentActive?._id` with optional chaining. -/
def activeChatId : Option Chat → Option String
  | none => none
  | some c => jsOrStr c.id c._id

/-- JS object update `st[userId] = status` on a status map copied by spread:
replace the value when the key is present, append the pair otherwise. -/
def setStatus (st : List (String × String)) (userId status : String) :
    List (String × String) :=
  if st.any (fun p => p.1 == userId) then
    st.map (fun p => if p.1 == userId then (p.1, status) else p)
  else st ++ [(userId, status)]

/-- `unreadCounts[k] || 0`: the stored counter, zero when the key is absent. -/
def getCount (u : List (String × Nat)) (k : String) : Nat :=
  match u.find? (fun p => p.1 == k) with
  | some p => p.2
  | none => 0

/-- JS object update `next[k] = v` on the unread-counts map. -/
def setKeyNat (u : List (String × Nat)) (k : String) (v : Nat) :
    List (String × Nat) :=
  if u.any (fun p => p.1 == k) then
    u.map (fun p => if p.1 == k then (p.1, v) else p)
  else u ++ [(k, v)]

/-- `next[id] = (next[id] || 0) + 1`: the unread-counter increment performed by
`handleNewMessage` for an inactive chat. -/
def incCount (u : List (String × Nat)) (k : String) : List (String × Nat) :=
  setKeyNat u k (getCount u k + 1)

/-- The clear-unread update of the `useEffect [active]` block:
`if (!prev[cid]) return prev;` else delete the `cid` entry. -/
def clearUnread (u : List (String × Nat)) (cid : String) :
    List (String × Nat) :=
  if getCount u cid = 0 then u else u.filter (fun p => p.1 != cid)

/-- Outbound socket emissions performed by the handlers. -/
inductive Emit where
  | delivered (messageId : Option String)
  | seen (messageIds : List (Option String))
  | sendMsg (chatId : Option String) (content : String)
  | chatJoin (chatId : Option String)
deriving DecidableEq, Repr

/-- The three collection snapshots owned by the reconciliation layer. -/
structure ClientState where
  messages : List Message
  chats : List Chat
  unread : List (String × Nat)
deriving DecidableEq, Repr

/-- The `setMessages` update of `handleNewMessage` for the active chat:
skip when a message with the same canonical id exists, append otherwise. -/
def dedupAppend (message : Message) (prev : List Message) : List Message :=
  if prev.any (fun m => msgKey m == msgKey message) then prev
  else prev ++ [message]

/-- `{...message.chatInfo, lastMessage: message}`: the chat entry built by the
fallback insert of `handleNewMessage` (no `typing` field on `chatInfo`, so the
spread leaves it falsy). -/
def chatOfInfo (info : ChatInfo) (message : Message) : Chat :=
  { id := info.id, _id := info._id, name := info.name, isGroup := info.isGroup,
    typing := false, lastMessage := some message }

/-- The `setChats` update of `handleNewMessage`: replace the last-message
snapshot of an existing chat; otherwise insert from embedded `chatInfo` after
re-checking existence; otherwise leave the list unchanged (the asynchronous
fetch is modelled separately by `fetchRequest` / `fetchCompleteChats`). -/
def handleNewMessageChats (chatIdStr : String) (message : Message)
    (list : List Chat) : List Chat :=
  if list.any (fun c => chatKey c == chatIdStr) then
    list.map (fun c =>
      if chatKey c == chatIdStr then { c with lastMessage := some message }
      else c)
  else
    match message.chatInfo with
    | some info =>
      let chat := chatOfInfo info message
      if list.any (fun c => chatKey c == chatKey chat) then list
      else chat :: list
    | none => list

/-- The chat id that `handleNewMessage` fetches over REST: requested exactly
when the chat is absent and the event carries no embedded `chatInfo`. -/
def fetchRequest (chatIdStr : String) (message : Message)
    (list : List Chat) : Option String :=
  if list.any (fun c => chatKey c == chatIdStr) then none
  else
    match message.chatInfo with
    | some _ => none
    | none => some chatIdStr

/-- The `setChats` update run when the asynchronous chat fetch of
`handleNewMessage` resolves: insert the fetched chat if still absent. -/
def fetchCompleteChats (chat : Chat) (cur : List Chat) : List Chat :=
  if cur.any (fun c => chatKey c == chatKey chat) then cur
  else chat :: cur

/-- The `setChats` update of the `chat:created` handler: replace every entry
with the same canonical id, or insert at the front when absent. -/
def chatCreatedChats (chat : Chat) (list : List Chat) : List Chat :=
  if list.any (fun c => chatKey c == chatKey chat) then
    list.map (fun c => if chatKey c == chatKey chat then chat else c)
  else chat :: list

/-- Result of one `message:new` event: the new state snapshots, the emitted
acknowledgments, and the chat id of the scheduled REST fetch (if any). -/
structure HandlerResult where
  state : ClientState
  emits : List Emit
  fetchChat : Option String
deriving DecidableEq, Repr

/-- The `handleNewMessage` socket handler.  `currentActive` and `currentUser`
are the values read from `activeRef`/`userRef`; `socketConnected` is
`socket && socket.connected`. -/
def handleNewMessage (message : Message) (currentActive : Option Chat)
    (currentUser : Option String) (socketConnected : Bool)
    (st : ClientState) : HandlerResult :=
  let chatIdOpt := jsOrStr message.chat message.chatId
  if jsFalsyStr chatIdOpt then ⟨st, [], none⟩
  else
    let chatId := jsString chatIdOpt
    let isActive : Bool :=
      (chatId == jsString (activeChatId currentActive)) && currentActive.isSome
    let messages' :=
      if isActive then dedupAppend message st.messages else st.messages
    let emits :=
      if isActive && socketConnected
          && (message.sender != jsString currentUser) then
        [Emit.delivered (jsOrStr message.id message._id),
         Emit.seen [jsOrStr message.id message._id]]
      else []
    let chats' := handleNewMessageChats chatId message st.chats
    let fetch := fetchRequest chatId message st.chats
    let unread' :=
      if !isActive && (message.sender != jsString currentUser) then
        incCount st.unread chatId
      else st.unread
    ⟨⟨messages', chats', unread'⟩, emits, fetch⟩

/-- The state after one `message:new` event (ignoring emissions and the
scheduled fetch). -/
def stepNewMessage (currentActive : Option Chat) (currentUser : Option String)
    (socketConnected : Bool) (st : ClientState) (message : Message) :
    ClientState :=
  (handleNewMessage message currentActive currentUser socketConnected st).state

/-- One trigger that can insert a chat with a new canonical id: the synchronous
fallback insert of `handleNewMessage` (embedded `chatInfo`), the completion of
its asynchronous REST fetch, or the `chat:created` handler. -/
inductive ChatInsertTrigger where
  | fromMessage (chatId : String) (message : Message)
  | fetchComplete (chat : Chat)
  | created (chat : Chat)
deriving DecidableEq, Repr

/-- Apply one chat-insert trigger to the chat list. -/
def applyChatTrigger (list : List Chat) : ChatInsertTrigger → List Chat
  | .fromMessage chatId message => handleNewMessageChats chatId message list
  | .fetchComplete chat => fetchCompleteChats chat list
  | .created chat => chatCreatedChats chat list

/-- The trigger concerns canonical chat id `k`: the message event targets chat
`k` and embeds chat info whose canonical id is `k`, or the fetched/created chat
has canonical id `k`. -/
def triggerForKey (k : String) : ChatInsertTrigger → Prop
  | .fromMessage chatId message =>
      chatId = k ∧ ∃ info, message.chatInfo = some info ∧ infoKey info = k
  | .fetchComplete chat => chatKey chat = k
  | .created chat => chatKey chat = k

/-- Number of chat entries with canonical id `k`. -/
def countChatKey (k : String) (l : List Chat) : Nat :=
  l.countP (fun c => chatKey c == k)

/-- Number of thread entries with canonical id `k`. -/
def countMsgKey (k : String) (l : List Message) : Nat :=
  l.countP (fun m => msgKey m == k)

/-- The `setMessages` update of the `message:status` handler: patch the status
map of every message whose canonical id matches the event's `messageId`. -/
def statusUpdateMessages (messageId : Option String) (userId status : String)
    (prev : List Message) : List Message :=
  prev.map (fun m =>
    if msgKey m != jsString messageId then m
    else { m with status := setStatus m.status userId status })

/-- The `setChats` update of the `message:status` handler: patch the status map
of a cached last-message whose canonical id matches the event's `messageId`. -/
def statusUpdateChats (messageId : Option String) (userId status : String)
    (prev : List Chat) : List Chat :=
  prev.map (fun c =>
    match c.lastMessage with
    | none => c
    | some lm =>
      if msgKey lm != jsString messageId then c
      else
        let patched := { lm with status := setStatus lm.status userId status }
        { c with lastMessage := some patched })

/-- The patched chat built by the `message:status` handler for a matching
last-message: same record with only the status map of its last message set. -/
def patchLastMessage (userId status : String) (lm : Message) (c : Chat) :
    Chat :=
  let patched := { lm with status := setStatus lm.status userId status }
  { c with lastMessage := some patched }

/-- The `forEach` deduplication loop of `loadChats`, restructured as a
recursion carrying the `seenIds` set: keep a chat only when its canonical id
has not been seen yet. -/
def dedupGo (seen : List String) : List Chat → List Chat
  | [] => []
  | chat :: rest =>
    let chatId := chatKey chat
    if seen.contains chatId then dedupGo seen rest
    else chat :: dedupGo (chatId :: seen) rest

/-- Deduplicate a REST chat-list response by canonical id, first occurrence
winning (the `uniqueChats`/`seenIds` loop of `loadChats`). -/
def dedupChats (l : List Chat) : List Chat :=
  dedupGo [] l

/-- The shape of a REST `/api/chats` response: an array, a bare object, or a
falsy value. -/
inductive ApiChatsResp where
  | arr (l : List Chat)
  | obj (c : Chat)
  | nullish
deriving DecidableEq, Repr

/-- The `loadChats` reconciliation: returns the new chat cache and the new
active chat.  An array is deduplicated by canonical id; a bare object is
coerced into a single-element list; a falsy response clears the cache.  The
active chat is set to the first entry only when none is active. -/
def loadChats (data : ApiChatsResp) (active : Option Chat) :
    List Chat × Option Chat :=
  match data with
  | .arr l =>
    let uniqueChats := dedupChats l
    (uniqueChats,
      if uniqueChats.length > 0 && active.isNone then uniqueChats.head?
      else active)
  | .obj c => ([c], if active.isNone then some c else active)
  | .nullish => ([], active)

/-- The clear-unread-and-mark-seen effect run on chat activation
(`useEffect [active]`): delete the active chat's unread entry (when truthy) and
emit one `message:seen` batch with the truthy ids of every cached message not
authored by the current user — only when that id list is nonempty and the
socket is present. -/
def activateChat (active : Chat) (userId : Option String)
    (socketPresent : Bool) (unread : List (String × Nat))
    (messages : List Message) : List (String × Nat) × List Emit :=
  let cid := chatKey active
  let unread' := clearUnread unread cid
  let otherMessages := messages.filter (fun m => m.sender != jsString userId)
  let ids := otherMessages.filterMap (fun m => jsTruthyVal (jsOrStr m.id m._id))
  let emits :=
    if !ids.isEmpty && socketPresent then [Emit.seen (ids.map some)] else []
  (unread', emits)

/-- The acknowledgment object passed to the `message:send` callback. -/
structure Ack where
  ok : Bool
  message : Option Message
  error : Option String
deriving DecidableEq, Repr

/-- The ack callback of `send`: on `ack.ok` with a message, replace the
optimistic entry by the canonical one (or drop the optimistic entry when the
canonical message already arrived); on a truthy `ack.error`, remove the
optimistic entry; otherwise (unexpected ack format) leave the thread
unchanged. -/
def ackUpdate (tempId : String) (a : Option Ack) (prev : List Message) :
    List Message :=
  match a with
  | none => prev
  | some ack =>
    match ack.message with
    | some msg =>
      if ack.ok then
        let realId := jsOrStr msg.id msg._id
        if prev.any (fun m => msgKey m == jsString realId) then
          prev.filter (fun m => m.id != some tempId)
        else prev.map (fun m => if m.id == some tempId then msg else m)
      else if !jsFalsyStr ack.error then
        prev.filter (fun m => m.id != some tempId)
      else prev
    | none =>
      if !jsFalsyStr ack.error then prev.filter (fun m => m.id != some tempId)
      else prev

/-- The bounded reconnection wait of `send`:
`while (!socket.connected && waited < maxWait) { sleep(200); waited += 200 }`
with `maxWait = 5000`.  `conn w` is the observed `socket.connected` after
having waited `w` milliseconds; the result is the final `waited` value. -/
def waitLoop (conn : Nat → Bool) (waited : Nat) : Nat :=
  if h : conn waited = false ∧ waited < 5000 then waitLoop conn (waited + 200)
  else waited
termination_by 5000 - waited
decreasing_by omega

/-- JS `String.prototype.trim()`, modelled executably on the character list:
drop whitespace from both ends. -/
def jsTrim (s : String) : String :=
  String.mk
    (((s.data.dropWhile Char.isWhitespace).reverse.dropWhile
        Char.isWhitespace).reverse)

/-- Outcome of one `send` invocation. -/
inductive SendOutcome where
  | noInput
  | noSocket
  | notConnected
  | sent (tempId : String)
deriving DecidableEq, Repr

/-- The `send` operation: guard on active chat and trimmed input; guard on a
socket being present; when disconnected, poll `socket.connected` every 200 ms
for up to 5000 ms and give up with a user-visible alert if still disconnected;
otherwise append the optimistic message and emit `message:send`. -/
def send (active : Option Chat) (input : String) (socketPresent : Bool)
    (conn : Nat → Bool) (userId : String) (nowMs : Nat) (nowIso : String)
    (messages : List Message) : List Message × List Emit × SendOutcome :=
  match active with
  | none => (messages, [], .noInput)
  | some a =>
    if jsTrim input == "" then (messages, [], .noInput)
    else if !socketPresent then (messages, [], .noSocket)
    else
      let connectedNow := if conn 0 then true else conn (waitLoop conn 0)
      if !connectedNow then (messages, [], .notConnected)
      else
        let tempId := "temp-" ++ toString nowMs
        let chatId := jsOrStr a.id a._id
        let messageContent := jsTrim input
        let optimisticMsg : Message :=
          { id := some tempId, _id := none, chat := chatId, chatId := none,
            sender := userId, content := messageContent,
            createdAt := some nowIso, status := [(userId, "sent")],
            optimistic := true, chatInfo := none }
        (messages ++ [optimisticMsg],
         [Emit.sendMsg chatId messageContent], .sent tempId)

/-- `decryptMessage` from the encryption helper module: the body of the `try`
block (`CryptoJS.AES.decrypt` followed by `toString(Utf8)`, an external
capability) is an oracle returning either the decrypted text or a thrown
error; the `catch` turns every thrown error into the sentinel string. -/
def decryptMessage (aesDecryptUtf8 : String → Except String String)
    (cipherText : String) : String :=
  match aesDecryptUtf8 cipherText with
  | .ok originalText => originalText
  | .error _ => "[Invalid Encrypted Data]"

/-- The message is delivered to the currently active chat: it passes the
`!chatId` guard and its chat id equals the active chat's canonical id (the
`isActive` condition of `handleNewMessage`). -/
def deliversToActive (currentActive : Option Chat) (m : Message) : Bool :=
  !jsFalsyStr (jsOrStr m.chat m.chatId)
    && (jsString (jsOrStr m.chat m.chatId)
          == jsString (activeChatId currentActive))
    && currentActive.isSome

/-- Sample chat with id `c1`. -/
def chatC1 : Chat :=
  { id := some "c1", _id := none, name := some "alpha", isGroup := false,
    typing := false, lastMessage := none }

/-- Sample chat with only a `_id` field, id `c2`. -/
def chatC2 : Chat :=
  { id := none, _id := some "c2", name := some "beta", isGroup := false,
    typing := false, lastMessage := none }

/-- Sample chat lacking both id fields. -/
def chatNoId1 : Chat :=
  { id := none, _id := none, name := some "ghost-one", isGroup := false,
    typing := false, lastMessage := none }

/-- Second, different sample chat lacking both id fields. -/
def chatNoId2 : Chat :=
  { id := none, _id := none, name := some "ghost-two", isGroup := true,
    typing := false, lastMessage := none }

/-- Sample incoming message `m1` for chat `c1` from user `u2`. -/
def msgM1 : Message :=
  { id := some "m1", _id := none, chat := some "c1", chatId := none,
    sender := "u2", content := "hi", createdAt := none, status := [],
    optimistic := false, chatInfo := none }

/-- Sample embedded chat info with id `c2`. -/
def infoC2 : ChatInfo :=
  { id := some "c2", _id := none, name := some "beta", isGroup := false }

/-- Sample incoming message `m2` for chat `c2` carrying embedded chat info. -/
def msgM2 : Message :=
  { id := some "m2", _id := none, chat := some "c2", chatId := none,
    sender := "u2", content := "yo", createdAt := none, status := [],
    optimistic := false, chatInfo := some infoC2 }

/-- Sample message that lacks both `chat` and `chatId`. -/
def msgNoChat : Message :=
  { id := some "m3", _id := none, chat := none, chatId := none,
    sender := "u2", content := "lost", createdAt := none, status := [],
    optimistic := false, chatInfo := none }

/-- Sample optimistic message with temporary id `temp-1` from user `u1`. -/
def optimisticEx : Message :=
  { id := some "temp-1", _id := none, chat := some "c1", chatId := none,
    sender := "u1", content := "hello", createdAt := some "t0",
    status := [("u1", "sent")], optimistic := true, chatInfo := none }

/-- Sample canonical message returned by a successful ack for `optimisticEx`. -/
def realMsgEx : Message :=
  { id := some "m9", _id := none, chat := some "c1", chatId := none,
    sender := "u1", content := "hello", createdAt := some "t1",
    status := [("u1", "sent")], optimistic := false, chatInfo := none }

theorem countP_pos_iff_any {α : Type} (p : α → Bool) (l : List α) :
    l.any p = true ↔ 0 < l.countP p := by
  rw [List.any_eq_true, List.countP_pos_iff]

theorem dedupAppend_idem (m : Message) (l : List Message) :
    dedupAppend m (dedupAppend m l) = dedupAppend m l := by
  by_cases h : l.any (fun x => msgKey x == msgKey m) = true
  · simp [dedupAppend, h]
  · simp only [dedupAppend, h, if_neg, Bool.not_eq_true] at *
    simp [dedupAppend, h, List.any_append]

/-- C9: for every decryption oracle and every input, `decryptMessage` is total
by construction (it always returns a string), and whenever the wrapped AES
decryption throws, the result is the sentinel string
`"[Invalid Encrypted Data]"` rather than a propagated error. -/
theorem decryptMessage_failure_sentinel
    (aesDecryptUtf8 : String → Except String String) (cipherText e : String)
    (h : aesDecryptUtf8 cipherText = .error e) :
    decryptMessage aesDecryptUtf8 cipherText = "[Invalid Encrypted Data]" := by
  simp [decryptMessage, h]

theorem decryptMessage_failure_sentinel_witness :
    decryptMessage (fun _ => .error "Malformed UTF-8 data") "ciphertext"
      = "[Invalid Encrypted Data]" :=
  decryptMessage_failure_sentinel (fun _ => .error "Malformed UTF-8 data")
    "ciphertext" "Malformed UTF-8 data" rfl

/-- C10: a `message:new` event whose payload carries neither a `chat` nor a
`chatId` field is a complete no-op: thread, chat list and unread counters are
unchanged, no acknowledgment is emitted, and no chat fetch is scheduled. -/
theorem newMessage_missing_chatId_noop (message : Message)
    (currentActive : Option Chat) (currentUser : Option String)
    (socketConnected : Bool) (st : ClientState)
    (hchat : message.chat = none) (hcid : message.chatId = none) :
    handleNewMessage message currentActive currentUser socketConnected st
      = ⟨st, [], none⟩ := by
  simp [handleNewMessage, jsOrStr, jsFalsyStr, hchat, hcid]

theorem newMessage_missing_chatId_noop_witness :
    handleNewMessage msgNoChat (some chatC1) (some "u1") true
        ⟨[msgM1], [chatC1], [("c1", 1)]⟩
      = ⟨⟨[msgM1], [chatC1], [("c1", 1)]⟩, [], none⟩ :=
  newMessage_missing_chatId_noop msgNoChat (some chatC1) (some "u1") true
    ⟨[msgM1], [chatC1], [("c1", 1)]⟩ rfl rfl

/-- C6 counterexample: when both id fields are absent the canonical id is the
literal string `"undefined"`, not an invalid key that fails comparisons — it
collides with the key of an entity whose id is literally `"undefined"`, and two
distinct entities each lacking both id fields receive equal keys, so
`loadChats` deduplicates them against each other. -/
theorem canonicalId_missing_collides :
    canonicalId none none = "undefined"
    ∧ canonicalId none none = canonicalId (some "undefined") none
    ∧ chatNoId1 ≠ chatNoId2
    ∧ dedupChats [chatNoId1, chatNoId2] = [chatNoId1] := by
  refine ⟨rfl, rfl, by decide, rfl⟩

/-- C6 (amended): deriving the canonical id is pure and total, and when both
id fields are absent the result is the literal string `"undefined"`, which
compares equal to the canonical id of every other entity lacking both fields
(so such entities are identified with each other rather than failing
comparisons). -/
theorem canonicalId_missing_undefined (i mid : Option String)
    (hi : i = none) (hm : mid = none) :
    canonicalId i mid = "undefined"
    ∧ ∀ j mj : Option String, j = none → mj = none →
        canonicalId i mid = canonicalId j mj := by
  subst hi; subst hm
  exact ⟨rfl, by intro j mj hj hmj; subst hj; subst hmj; rfl⟩

theorem canonicalId_missing_undefined_witness :
    canonicalId none none = "undefined"
    ∧ ∀ j mj : Option String, j = none → mj = none →
        canonicalId none none = canonicalId j mj :=
  canonicalId_missing_undefined none none rfl rfl

/-- C4 counterexample: an ack with `ok:false` but no `error` field falls into
the unexpected-format branch of the callback, so the optimistic entry is NOT
removed — the claim's rollback does not happen on `ok:false` alone. -/
theorem ack_ok_false_no_error_keeps_optimistic :
    ackUpdate "temp-1" (some { ok := false, message := none, error := none })
        [optimisticEx]
      = [optimisticEx]
    ∧ optimisticEx.id = some "temp-1" :=
  ⟨rfl, rfl⟩

/-- C4 (amended): for every ack with `ok:false`, the optimistic entry is
removed (and nothing else about the thread changes, so no permanent entry for
that send remains) exactly when the ack carries a truthy `error`; an `ok:false`
ack without an error leaves the thread unchanged. -/
theorem ack_error_rollback (tempId : String) (ack : Ack)
    (prev : List Message) (hok : ack.ok = false) :
    (jsFalsyStr ack.error = false →
      ackUpdate tempId (some ack) prev
          = prev.filter (fun m => m.id != some tempId)
      ∧ ∀ m ∈ ackUpdate tempId (some ack) prev, m.id ≠ some tempId)
    ∧ (jsFalsyStr ack.error = true →
        ackUpdate tempId (some ack) prev = prev) := by
  constructor
  · intro herr
    have hres : ackUpdate tempId (some ack) prev
        = prev.filter (fun m => m.id != some tempId) := by
      cases hmsg : ack.message <;> simp [ackUpdate, hmsg, hok, herr]
    refine ⟨hres, ?_⟩
    intro m hmem
    rw [hres] at hmem
    have := (List.mem_filter.mp hmem).2
    simpa [bne_iff_ne] using this
  · intro herr
    cases hmsg : ack.message <;> simp [ackUpdate, hmsg, hok, herr]

theorem ack_error_rollback_witness :
    ackUpdate "temp-1"
        (some { ok := false, message := none, error := some "boom" })
        [msgM1, optimisticEx]
      = [msgM1]
    ∧ ackUpdate "temp-1"
        (some { ok := false, message := none, error := none })
        [msgM1, optimisticEx]
      = [msgM1, optimisticEx] := by
  constructor
  · have h := (ack_error_rollback "temp-1"
      { ok := false, message := none, error := some "boom" }
      [msgM1, optimisticEx] rfl).1 rfl
    rw [h.1]; rfl
  · exact (ack_error_rollback "temp-1"
      { ok := false, message := none, error := none }
      [msgM1, optimisticEx] rfl).2 rfl

theorem dedupGo_filter (k : String) :
    ∀ (l : List Chat) (seen : List String),
    (dedupGo seen l).filter (fun c => chatKey c == k)
      = if seen.contains k then []
        else (l.filter (fun c => chatKey c == k)).take 1 := by
  intro l
  induction l with
  | nil => intro seen; simp [dedupGo]
  | cons chat rest ih =>
    intro seen
    by_cases hk : chatKey chat = k
    · subst hk
      by_cases hs : chatKey chat ∈ seen
      · simp [dedupGo, hs, ih]
      · simp [dedupGo, hs, ih]
    · by_cases hs : chatKey chat ∈ seen
      · simp [dedupGo, hs, ih, hk]
      · simp [dedupGo, hs, ih, hk, Ne.symm hk]

/-- C7: `loadChats` coerces a bare-object response into a single-element cache;
an array response is deduplicated by canonical id keeping the first occurrence
of each id (for every key, the resulting cache holds exactly the first entry of
the response with that key); and the active chat becomes the first cache entry
exactly when none was active. -/
theorem loadChats_spec (l : List Chat) (c : Chat) (a : Option Chat)
    (k : String) :
    loadChats (.obj c) a = ([c], if a.isNone then some c else a)
    ∧ ((loadChats (.arr l) a).1).filter (fun x => chatKey x == k)
        = (l.filter (fun x => chatKey x == k)).take 1
    ∧ (loadChats (.arr l) a).2
        = (if a.isNone then (dedupChats l).head? else a) := by
  refine ⟨?_, ?_, ?_⟩
  · cases a <;> simp [loadChats]
  · simpa [loadChats, dedupChats] using dedupGo_filter k l []
  · cases a with
    | none => cases h : dedupChats l <;> simp [loadChats, h]
    | some x => simp [loadChats]

theorem getCount_filter_self (u : List (String × Nat)) (cid : String) :
    getCount (u.filter (fun p => p.1 != cid)) cid = 0 := by
  have hfind : (u.filter (fun p => p.1 != cid)).find? (fun p => p.1 == cid)
      = none := by
    rw [List.find?_eq_none]
    intro x hx
    have hne := (List.mem_filter.mp hx).2
    simp only [bne_iff_ne, ne_eq] at hne
    simp [hne]
  simp [getCount, hfind]

theorem getCount_cons (p : String × Nat) (rest : List (String × Nat))
    (k : String) :
    getCount (p :: rest) k = if p.1 == k then p.2 else getCount rest k := by
  by_cases h : (p.1 == k) = true
  · simp [getCount, List.find?_cons_of_pos, h]
  · rw [getCount, List.find?_cons_of_neg _ (by simp [h])]
    simp only [Bool.not_eq_true] at h
    simp [getCount, h]

theorem getCount_filter_other (u : List (String × Nat)) (cid k : String)
    (hk : k ≠ cid) :
    getCount (u.filter (fun p => p.1 != cid)) k = getCount u k := by
  induction u with
  | nil => rfl
  | cons p rest ih =>
    rw [List.filter_cons]
    by_cases h1 : (p.1 != cid) = true
    · rw [if_pos h1, getCount_cons, getCount_cons, ih]
    · rw [if_neg h1]
      simp only [bne_iff_ne, ne_eq, Decidable.not_not] at h1
      have h2 : (p.1 == k) = false := by
        rw [beq_eq_false_iff_ne, h1]
        exact Ne.symm hk
      rw [ih, getCount_cons, h2]
      simp

/-- C3 (amended): activating a chat always zeroes that chat's unread counter
and leaves every other chat's counter unchanged; a single seen batch is
emitted, containing exactly the truthy ids of the cached messages not authored
by the current user, precisely when at least one such id exists and the socket
is present — with no such message (or no socket) no batch is emitted. -/
theorem activateChat_clears_and_batches (active : Chat)
    (userId : Option String) (sockp : Bool) (unread : List (String × Nat))
    (messages : List Message) :
    getCount (activateChat active userId sockp unread messages).1
        (chatKey active) = 0
    ∧ (∀ k, k ≠ chatKey active →
        getCount (activateChat active userId sockp unread messages).1 k
          = getCount unread k)
    ∧ (activateChat active userId sockp unread messages).2
        = (if !((messages.filter (fun m => m.sender != jsString userId)).filterMap
                  (fun m => jsTruthyVal (jsOrStr m.id m._id))).isEmpty
              && sockp
           then [Emit.seen (((messages.filter
                    (fun m => m.sender != jsString userId)).filterMap
                    (fun m => jsTruthyVal (jsOrStr m.id m._id))).map some)]
           else []) := by
  refine ⟨?_, ?_, rfl⟩
  · show getCount (clearUnread unread (chatKey active)) (chatKey active) = 0
    unfold clearUnread
    by_cases h : getCount unread (chatKey active) = 0 <;>
      simp [h, getCount_filter_self]
  · intro k hk
    show getCount (clearUnread unread (chatKey active)) k = getCount unread k
    unfold clearUnread
    by_cases h : getCount unread (chatKey active) = 0 <;>
      simp [h, getCount_filter_other unread (chatKey active) k hk]

/-- C3 counterexample: activating chat `c1` with an unread counter of 2 while
no cached message from another user exists clears the counter but emits NO
seen batch, although the claim demands that every activation emit a single
batch with the (here empty) list of non-self message ids. -/
theorem activateChat_no_messages_no_batch :
    (activateChat chatC1 (some "u1") true [("c1", 2)] []).2 = []
    ∧ (activateChat chatC1 (some "u1") true [("c1", 2)] []).1 = [] :=
  ⟨rfl, rfl⟩

theorem activateChat_clears_and_batches_witness :
    getCount (activateChat chatC1 (some "u1") true [("c1", 2), ("c2", 3)]
        [msgM1]).1 "c1" = 0
    ∧ getCount (activateChat chatC1 (some "u1") true [("c1", 2), ("c2", 3)]
        [msgM1]).1 "c2" = 3
    ∧ (activateChat chatC1 (some "u1") true [("c1", 2), ("c2", 3)]
        [msgM1]).2 = [Emit.seen [some "m1"]] := by
  have h := activateChat_clears_and_batches chatC1 (some "u1") true
    [("c1", 2), ("c2", 3)] [msgM1]
  have e : chatKey chatC1 = "c1" := rfl
  refine ⟨?_, ?_, ?_⟩
  · rw [← e]; exact h.1
  · rw [h.2.1 "c2" (by decide)]; rfl
  · rw [h.2.2]; rfl

/-- C8: a `message:status` event whose `messageId` matches no cached message
and no cached last-message leaves both lists unchanged; in general both lists
keep their length and every entry is unchanged except that a matching entry is
replaced by the same record with only its status map patched. -/
theorem statusUpdate_frame (messageId : Option String) (userId status : String)
    (msgs : List Message) (chats : List Chat) :
    ((∀ m ∈ msgs, msgKey m ≠ jsString messageId) →
      statusUpdateMessages messageId userId status msgs = msgs)
    ∧ ((∀ c ∈ chats,
          c.lastMessage.all (fun lm => msgKey lm != jsString messageId)
            = true) →
        statusUpdateChats messageId userId status chats = chats)
    ∧ (statusUpdateMessages messageId userId status msgs).length = msgs.length
    ∧ (statusUpdateChats messageId userId status chats).length = chats.length
    ∧ (∀ i : Nat, (statusUpdateMessages messageId userId status msgs)[i]?
        = (msgs[i]?).map (fun m =>
            if msgKey m = jsString messageId
            then { m with status := setStatus m.status userId status }
            else m))
    ∧ (∀ i : Nat, (statusUpdateChats messageId userId status chats)[i]?
        = (chats[i]?).map (fun c =>
            match c.lastMessage with
            | none => c
            | some lm =>
              if msgKey lm = jsString messageId
              then patchLastMessage userId status lm c
              else c)) := by
  refine ⟨?_, ?_, ?_, ?_, ?_, ?_⟩
  · intro h
    rw [statusUpdateMessages]
    conv_rhs => rw [← List.map_id msgs]
    apply List.map_congr_left
    intro m hm
    simp [bne_iff_ne, h m hm]
  · intro h
    rw [statusUpdateChats]
    conv_rhs => rw [← List.map_id chats]
    apply List.map_congr_left
    intro c hc
    have := h c hc
    cases hlm : c.lastMessage with
    | none => simp
    | some lm =>
      rw [hlm] at this
      simp only [Option.all_some] at this
      simp [this]
  · rw [statusUpdateMessages, List.length_map]
  · rw [statusUpdateChats, List.length_map]
  · intro i
    rw [statusUpdateMessages, List.getElem?_map]
    cases h : msgs[i]? with
    | none => rfl
    | some m =>
      simp only [Option.map_some']
      congr 1
      by_cases hm : msgKey m = jsString messageId <;> simp [hm]
  · intro i
    rw [statusUpdateChats, List.getElem?_map]
    cases h : chats[i]? with
    | none => rfl
    | some c =>
      simp only [Option.map_some']
      congr 1
      cases hlm : c.lastMessage with
      | none => simp [hlm]
      | some lm =>
        by_cases hm : msgKey lm = jsString messageId <;>
          simp [hlm, hm, patchLastMessage]

theorem statusUpdate_frame_witness :
    statusUpdateMessages (some "zz") "u2" "seen" [msgM1] = [msgM1]
    ∧ statusUpdateChats (some "zz") "u2" "seen" [chatC1] = [chatC1] := by
  refine ⟨(statusUpdate_frame (some "zz") "u2" "seen" [msgM1] [chatC1]).1 ?_,
    (statusUpdate_frame (some "zz") "u2" "seen" [msgM1] [chatC1]).2.1 ?_⟩
  · decide
  · decide

theorem waitLoop_never_connected (conn : Nat → Bool)
    (hc : ∀ w, conn w = false) :
    ∀ n waited, waited ≤ 5000 → 5000 - waited ≤ 200 * n → 200 ∣ waited →
      waitLoop conn waited = 5000 := by
  intro n
  induction n with
  | zero =>
    intro waited h1 h2 h3
    have he : waited = 5000 := by omega
    subst he
    rw [waitLoop, dif_neg (by simp)]
  | succ n ih =>
    intro waited h1 h2 h3
    by_cases hlt : waited < 5000
    · rw [waitLoop, dif_pos ⟨hc waited, hlt⟩]
      have hle : waited + 200 ≤ 5000 := by
        obtain ⟨c, rfl⟩ := h3
        omega
      exact ih (waited + 200) hle (by omega) (Nat.dvd_add h3 ⟨1, rfl⟩)
    · have he : waited = 5000 := by omega
      subst he
      rw [waitLoop, dif_neg (by simp)]

theorem waitLoop_all_false (conn : Nat → Bool) (hc : ∀ w, conn w = false) :
    waitLoop conn 0 = 5000 :=
  waitLoop_never_connected conn hc 25 0 (by omega) (by omega) ⟨0, rfl⟩

/-- C5: `send` requires an active chat, non-empty trimmed content and a
connected socket.  With no active chat or whitespace-only input it is a
complete no-op: no optimistic entry is created, nothing is emitted, and the
thread is unchanged.  When the socket stays disconnected, the reconnection
poll runs in 200 ms steps up to the full 5000 ms cap, after which the
optimistic message is never created, nothing is emitted, and the user-visible
failure outcome is reported. -/
theorem send_preconditions (a : Chat) (input : String) (sockp : Bool)
    (conn : Nat → Bool) (userId : String) (nowMs : Nat) (nowIso : String)
    (messages : List Message) :
    (jsTrim input = "" →
      send (some a) input sockp conn userId nowMs nowIso messages
        = (messages, [], .noInput))
    ∧ send none input sockp conn userId nowMs nowIso messages
        = (messages, [], .noInput)
    ∧ ((∀ w, conn w = false) → sockp = true → jsTrim input ≠ "" →
        send (some a) input sockp conn userId nowMs nowIso messages
          = (messages, [], .notConnected)
        ∧ waitLoop conn 0 = 5000) := by
  refine ⟨?_, rfl, ?_⟩
  · intro h
    simp [send, h]
  · intro hc hs hin
    have hw := waitLoop_all_false conn hc
    have hbe : (jsTrim input == "") = false := beq_eq_false_iff_ne.mpr hin
    exact ⟨by simp [send, hbe, hs, hc, hw], hw⟩

theorem send_preconditions_witness :
    send (some chatC1) "   " true (fun _ => false) "u1" 7 "t1" [msgM1]
      = ([msgM1], [], .noInput)
    ∧ send none "hi" true (fun _ => false) "u1" 7 "t1" [msgM1]
      = ([msgM1], [], .noInput)
    ∧ send (some chatC1) "hi" true (fun _ => false) "u1" 7 "t1" [msgM1]
      = ([msgM1], [], .notConnected) := by
  have h := send_preconditions chatC1 "   " true (fun _ => false) "u1" 7 "t1"
    [msgM1]
  have h2 := send_preconditions chatC1 "hi" true (fun _ => false) "u1" 7 "t1"
    [msgM1]
  exact ⟨h.1 (by decide), h2.2.1,
    (h2.2.2 (fun w => rfl) rfl (by decide)).1⟩

theorem countMsgKey_dedupAppend (m : Message) (l : List Message) :
    countMsgKey (msgKey m) (dedupAppend m l)
      = if countMsgKey (msgKey m) l = 0 then 1
        else countMsgKey (msgKey m) l := by
  by_cases h : l.any (fun x => msgKey x == msgKey m) = true
  · have hpos : 0 < countMsgKey (msgKey m) l :=
      (countP_pos_iff_any _ l).mp h
    rw [dedupAppend, if_pos h, if_neg (by omega)]
  · have hzero : countMsgKey (msgKey m) l = 0 := by
      rw [countMsgKey, List.countP_eq_zero]
      intro x hx hbx
      exact h (List.any_eq_true.mpr ⟨x, hx, hbx⟩)
    rw [dedupAppend, if_neg h, if_pos hzero, countMsgKey, List.countP_append]
    rw [countMsgKey] at hzero
    simp [hzero]

theorem stepNewMessage_messages (ca : Option Chat) (cu : Option String)
    (sc : Bool) (st : ClientState) (m : Message) :
    (stepNewMessage ca cu sc st m).messages
      = if deliversToActive ca m then dedupAppend m st.messages
        else st.messages := by
  rw [stepNewMessage, handleNewMessage, deliversToActive]
  by_cases hg : jsFalsyStr (jsOrStr m.chat m.chatId) = true
  · simp [hg]
  · simp only [Bool.not_eq_true] at hg
    simp [hg]

theorem countMsgKey_foldl_preserved (a : Chat) (cu : Option String)
    (sc : Bool) (k : String) :
    ∀ (evs : List Message) (st : ClientState),
    (∀ m ∈ evs, msgKey m = k) →
    countMsgKey k st.messages = 1 →
    countMsgKey k
      ((evs.foldl (stepNewMessage (some a) cu sc) st).messages) = 1 := by
  intro evs
  induction evs with
  | nil => intro st _ h1; simpa using h1
  | cons m rest ih =>
    intro st hall h1
    rw [List.foldl_cons]
    apply ih _ (fun x hx => hall x (List.mem_cons_of_mem m hx))
    rw [stepNewMessage_messages]
    by_cases hd : deliversToActive (some a) m = true
    · have hk := hall m (List.mem_cons_self m rest)
      subst hk
      rw [if_pos hd, countMsgKey_dedupAppend m st.messages, h1]
      norm_num
    · simp [hd, h1]

/-- C1: for every nonempty sequence of `message:new` events delivered to the
active chat, all carrying the same canonical message id `k`, starting from a
thread with no entry of id `k` the thread afterwards contains exactly one
entry with canonical id `k`; and re-applying any `message:new` event a second
time leaves the thread exactly as after the first application. -/
theorem newMessage_thread_dedup (a : Chat) (cu : Option String) (sc : Bool)
    (st0 : ClientState) (k : String) (evs : List Message)
    (hne : evs ≠ [])
    (hdeliver : ∀ m ∈ evs, deliversToActive (some a) m = true)
    (hkey : ∀ m ∈ evs, msgKey m = k)
    (h0 : countMsgKey k st0.messages = 0) :
    countMsgKey k
      ((evs.foldl (stepNewMessage (some a) cu sc) st0).messages) = 1
    ∧ ∀ (m : Message) (st : ClientState),
        (stepNewMessage (some a) cu sc
            (stepNewMessage (some a) cu sc st m) m).messages
          = (stepNewMessage (some a) cu sc st m).messages := by
  constructor
  · cases evs with
    | nil => exact absurd rfl hne
    | cons m rest =>
      have hk := hkey m (List.mem_cons_self m rest)
      subst hk
      rw [List.foldl_cons]
      apply countMsgKey_foldl_preserved a cu sc (msgKey m) rest _
        (fun x hx => hkey x (List.mem_cons_of_mem m hx))
      rw [stepNewMessage_messages,
        if_pos (hdeliver m (List.mem_cons_self m rest)),
        countMsgKey_dedupAppend m st0.messages, if_pos h0]
  · intro m st
    simp only [stepNewMessage_messages]
    by_cases hd : deliversToActive (some a) m = true
    · simp [hd, dedupAppend_idem]
    · simp [hd]

theorem newMessage_thread_dedup_witness :
    countMsgKey "m1"
      (([msgM1, msgM1].foldl (stepNewMessage (some chatC1) (some "u1") true)
          ⟨[], [], []⟩).messages) = 1 :=
  (newMessage_thread_dedup chatC1 (some "u1") true ⟨[], [], []⟩ "m1"
    [msgM1, msgM1] (by decide) (by decide) (by decide) rfl).1

theorem countP_map_preserving {α : Type} (p : α → Bool) (f : α → α)
    (l : List α) (hf : ∀ x, p (f x) = p x) :
    (l.map f).countP p = l.countP p := by
  induction l with
  | nil => rfl
  | cons x rest ih => simp [List.countP_cons, hf, ih]

theorem countChatKey_eq_zero_of_not_any (k : String) (l : List Chat)
    (h : ¬ l.any (fun c => chatKey c == k) = true) :
    countChatKey k l = 0 := by
  rw [countChatKey, List.countP_eq_zero]
  intro c hc hbc
  exact h (List.any_eq_true.mpr ⟨c, hc, hbc⟩)

@[simp] theorem chatKey_with_lastMessage (c : Chat) (m : Option Message) :
    chatKey { c with lastMessage := m } = chatKey c := rfl

theorem countChatKey_applyTrigger (k : String) (t : ChatInsertTrigger)
    (l : List Chat) (ht : triggerForKey k t) :
    countChatKey k (applyChatTrigger l t)
      = if countChatKey k l = 0 then 1 else countChatKey k l := by
  cases t with
  | fromMessage chatId message =>
    obtain ⟨hcid, info, hinfo, hik⟩ := ht
    rw [applyChatTrigger, handleNewMessageChats, hcid]
    by_cases h : l.any (fun c => chatKey c == k) = true
    · have hpos : 0 < countChatKey k l := (countP_pos_iff_any _ l).mp h
      rw [if_pos h, countChatKey, countP_map_preserving]
      · rw [← countChatKey, if_neg (by omega)]
      · intro c
        by_cases hc : (chatKey c == k) = true <;> simp [hc]
    · have hck : chatKey (chatOfInfo info message) = k := hik
      have hz := countChatKey_eq_zero_of_not_any k l h
      rw [if_neg h]
      simp only [hinfo]
      rw [hck, if_neg h, if_pos hz]
      rw [countChatKey, List.countP_cons]
      rw [countChatKey] at hz
      simp [hz, hck]
  | fetchComplete chat =>
    have hck : chatKey chat = k := ht
    rw [applyChatTrigger, fetchCompleteChats, hck]
    by_cases h : l.any (fun c => chatKey c == k) = true
    · have hpos : 0 < countChatKey k l := (countP_pos_iff_any _ l).mp h
      rw [if_pos h, if_neg (by omega)]
    · have hz := countChatKey_eq_zero_of_not_any k l h
      rw [if_neg h, if_pos hz, countChatKey, List.countP_cons]
      rw [countChatKey] at hz
      simp [hz, hck]
  | created chat =>
    have hck : chatKey chat = k := ht
    rw [applyChatTrigger, chatCreatedChats, hck]
    by_cases h : l.any (fun c => chatKey c == k) = true
    · have hpos : 0 < countChatKey k l := (countP_pos_iff_any _ l).mp h
      rw [if_pos h, countChatKey, countP_map_preserving]
      · rw [← countChatKey, if_neg (by omega)]
      · intro c
        by_cases hc : (chatKey c == k) = true <;> simp [hc, hck]
    · have hz := countChatKey_eq_zero_of_not_any k l h
      rw [if_neg h, if_pos hz, countChatKey, List.countP_cons]
      rw [countChatKey] at hz
      simp [hz, hck]

theorem countChatKey_foldl_preserved (k : String) :
    ∀ (ts : List ChatInsertTrigger) (l : List Chat),
    (∀ t ∈ ts, triggerForKey k t) →
    countChatKey k l = 1 →
    countChatKey k (ts.foldl applyChatTrigger l) = 1 := by
  intro ts
  induction ts with
  | nil => intro l _ h1; simpa using h1
  | cons t rest ih =>
    intro l hall h1
    rw [List.foldl_cons]
    apply ih _ (fun x hx => hall x (List.mem_cons_of_mem t hx))
    rw [countChatKey_applyTrigger k t l (hall t (List.mem_cons_self t rest)),
      h1]
    norm_num

/-- C2: for every nonempty sequence of chat-insert triggers for the same new
canonical chat id `k` — any interleaving of the `message:new` fallback insert
(with embedded chat info), the asynchronous fetch-then-insert completion, and
the `chat:created` handler — starting from a chat list with no entry of id
`k`, the chat list afterwards contains exactly one entry with canonical id
`k`, because every insert re-checks existence immediately before inserting. -/
theorem chatInsert_race_single_entry (k : String)
    (ts : List ChatInsertTrigger) (l0 : List Chat)
    (hne : ts ≠ []) (hk : ∀ t ∈ ts, triggerForKey k t)
    (h0 : countChatKey k l0 = 0) :
    countChatKey k (ts.foldl applyChatTrigger l0) = 1 := by
  cases ts with
  | nil => exact absurd rfl hne
  | cons t rest =>
    rw [List.foldl_cons]
    apply countChatKey_foldl_preserved k rest _
      (fun x hx => hk x (List.mem_cons_of_mem t hx))
    rw [countChatKey_applyTrigger k t l0 (hk t (List.mem_cons_self t rest)),
      if_pos h0]

theorem chatInsert_race_single_entry_witness :
    countChatKey "c2"
      ([ChatInsertTrigger.fromMessage "c2" msgM2,
        ChatInsertTrigger.created chatC2,
        ChatInsertTrigger.fetchComplete chatC2].foldl applyChatTrigger
        [chatC1]) = 1 := by
  apply chatInsert_race_single_entry "c2" _ [chatC1] (by decide) ?_ (by decide)
  intro t ht
  simp only [List.mem_cons, List.not_mem_nil, or_false] at ht
  rcases ht with rfl | rfl | rfl
  · exact ⟨rfl, infoC2, rfl, rfl⟩
  · exact (by decide : chatKey chatC2 = "c2")
  · exact (by decide : chatKey chatC2 = "c2")

end VercelChat
